import Mathlib

/-!
Verification of the wide-to-long reshape and aggregation pipeline of a
reporting dashboard (`app.py`).  The pipeline is shallowly embedded:
tables become lists of records, spreadsheet cells become an inductive
`Cell` type, pandas timestamps become a `Date` record ordered
lexicographically, and numeric values become `Rat`.
-/

namespace App

/-- A calendar date, standing in for a pandas Timestamp header value. -/
structure Date where
  year : Nat
  month : Nat
  day : Nat
deriving DecidableEq

/-- Lexicographic order on dates, matching timestamp comparison. -/
def Date.le (d e : Date) : Prop :=
  d.year < e.year ∨
    (d.year = e.year ∧ (d.month < e.month ∨ (d.month = e.month ∧ d.day ≤ e.day)))

instance : DecidableRel Date.le := fun d e => by
  unfold Date.le
  exact inferInstance

instance : IsTotal Date Date.le := by
  constructor
  intro a b
  unfold Date.le
  omega

instance : IsTrans Date Date.le := by
  constructor
  intro a b c
  unfold Date.le
  omega

/-- Truncation of a date to the first of its month: the effect of
`.dt.to_period("M").dt.to_timestamp()` on the melted Month column. -/
def Date.truncMonth (d : Date) : Date :=
  ⟨d.year, d.month, 1⟩

/-- A cell under a date column of the wide table: either blank (NaN),
a non-numeric entry, or a numeric value. -/
inductive Cell where
  | blank : Cell
  | nonNum : String → Cell
  | num : Rat → Cell
deriving DecidableEq

/-- Numeric coercion of a cell: the effect of
`pd.to_numeric(..., errors="coerce").fillna(0.0)` — blanks and
non-numeric entries become 0, numeric values are kept exactly. -/
def coerceCell : Cell → Rat
  | Cell.blank => 0
  | Cell.nonNum _ => 0
  | Cell.num q => q

/-- One row of the wide table.  The four identifier fields are optional
(a blank spreadsheet cell is NaN, i.e. `none`); `cells` holds the
values under the date columns, aligned positionally with the table's
`dateCols`. -/
structure WideRow where
  client : Option String
  job : Option String
  jobDescription : Option String
  dataType : Option String
  cells : List Cell
deriving DecidableEq

/-- The wide table handed to `to_long`: its non-date column names, its
date-typed column headers in original header order, and its rows. -/
structure WideTable where
  strCols : List String
  dateCols : List Date
  rows : List WideRow
deriving DecidableEq

/-- One row of the long table produced by the melt. -/
structure LongRow where
  client : Option String
  job : Option String
  jobDescription : Option String
  dataType : Option String
  month : Date
  value : Rat
deriving DecidableEq

/-- The required identifier columns (`ID_COLS` in the source). -/
def ID_COLS : List String :=
  ["Client", "Job", "Job description", "Data type"]

/-- Errors raised by `to_long` (`ValueError` in the source, carrying the
list of missing identifier columns in its message). -/
inductive ReshapeError where
  | schemaMissing : List String → ReshapeError
  | schemaNoDates : ReshapeError
deriving DecidableEq

/-- Sorting a list of dates ascending. -/
def sortDates (l : List Date) : List Date :=
  List.insertionSort Date.le l

/-- Sorting a list of strings ascending. -/
def sortStrings (l : List String) : List String :=
  List.insertionSort (fun a b : String => a ≤ b) l

/-- The identifier columns absent from the table
(`[c for c in ID_COLS if c not in df.columns]`). -/
def missingCols (t : WideTable) : List String :=
  ID_COLS.filter (fun c => decide (c ∉ t.strCols))

/-- Collects the date-typed headers and sorts them
(`detect_month_cols` in the source). -/
def detect_month_cols (t : WideTable) : List Date :=
  sortDates t.dateCols

/-- The long row produced for wide row `r` under the date column `d`
sitting at position `j`: the four identifier fields are carried over,
`Month` is `d` truncated to the first of its month, and `Value` is the
numeric coercion of the cell at position `j`. -/
def longOf (r : WideRow) (d : Date) (j : Nat) : LongRow :=
  { client := r.client
    job := r.job
    jobDescription := r.jobDescription
    dataType := r.dataType
    month := d.truncMonth
    value := coerceCell (r.cells.getD j Cell.blank) }

/-- The unpivot underlying `df.melt(id_vars=ID_COLS, value_vars=value_cols)`:
for each date column (taken in header order, starting at position `j`)
it emits one long row per wide row.  Note the column-major order. -/
def meltFrom (rows : List WideRow) : List Date → Nat → List LongRow
  | [], _ => []
  | d :: ds, j => rows.map (fun r => longOf r d j) ++ meltFrom rows ds (j + 1)

/-- The melt of a whole wide table. -/
def melt (t : WideTable) : List LongRow :=
  meltFrom t.rows t.dateCols 0

/-- The wide-to-long reshape (`to_long` in the source): fails when an
identifier column is missing (naming the missing ones) or when no
date-typed headers exist; otherwise returns the melted long table
together with the sorted distinct months. -/
def to_long (t : WideTable) : Except ReshapeError (List LongRow × List Date) :=
  if missingCols t ≠ [] then
    Except.error (ReshapeError.schemaMissing (missingCols t))
  else if detect_month_cols t = [] then
    Except.error ReshapeError.schemaNoDates
  else
    Except.ok (melt t, sortDates ((melt t).map (fun r => r.month)).dedup)

/-- Stringification of an optional field, as `astype(str)` does in the
filter mask: a present string is unchanged, NaN prints as "nan". -/
def strOf : Option String → String
  | some s => s
  | none => "nan"

/-- The selectable options for a categorical column:
`sorted(col.dropna().astype(str).unique().tolist())`. -/
def optionsOf (vals : List (Option String)) : List String :=
  sortStrings (vals.filterMap id).dedup

/-- The selectable "Data type" options (`data_types` in the source). -/
def data_types (rows : List LongRow) : List String :=
  optionsOf (rows.map (fun r => r.dataType))

/-- The selectable "Client" options (`clients` in the source). -/
def clients (rows : List LongRow) : List String :=
  optionsOf (rows.map (fun r => r.client))

/-- The selectable "Job description" options (`services` in the source). -/
def services (rows : List LongRow) : List String :=
  optionsOf (rows.map (fun r => r.jobDescription))

/-- Clearing a multiselect means ALL: `return selected or options`. -/
def multiselect_all (options selected : List String) : List String :=
  if selected.isEmpty then options else selected

/-- The row predicate of the filter mask: month within the inclusive
range and each stringified categorical field member of its selected
list. -/
def mask (startM endM : Date) (selTypes selClients selServices : List String)
    (r : LongRow) : Bool :=
  decide (Date.le startM r.month) && decide (Date.le r.month endM) &&
    selTypes.contains (strOf r.dataType) &&
    selClients.contains (strOf r.client) &&
    selServices.contains (strOf r.jobDescription)

/-- The filtered long table `dff = df_long.loc[mask]`, with the selected
lists already resolved. -/
def dff (rows : List LongRow) (startM endM : Date)
    (selTypes selClients selServices : List String) : List LongRow :=
  rows.filter (mask startM endM selTypes selClients selServices)

/-- The end-to-end filtering the sidebar wires up: each user selection
runs through `multiselect_all` over the options derived from the
unfiltered long table, then the mask is applied. -/
def filtered_pipeline (rows : List LongRow) (startM endM : Date)
    (selTypes selClients selServices : List String) : List LongRow :=
  dff rows startM endM
    (multiselect_all (data_types rows) selTypes)
    (multiselect_all (clients rows) selClients)
    (multiselect_all (services rows) selServices)

/-- Sum of the Value column of a list of long rows. -/
def sumVals (rows : List LongRow) : Rat :=
  (rows.map (fun r => r.value)).sum

/-- Total revenue of the (filtered) table: `float(dff["Value"].sum())`. -/
def revenue_total (rows : List LongRow) : Rat :=
  sumVals rows

/-- The distinct months of a long table, ascending (pandas `groupby`
sorts its keys). -/
def monthKeys (rows : List LongRow) : List Date :=
  sortDates ((rows.map (fun r => r.month)).dedup)

/-- The data behind the monthly revenue chart
(`df_.groupby("Month", as_index=False)["Value"].sum()`). -/
def line_revenue_by_month (rows : List LongRow) : List (Date × Rat) :=
  (monthKeys rows).map
    (fun m => (m, sumVals (rows.filter (fun r => decide (r.month = m)))))

/-- Rows with a strictly positive Value (`df_.loc[df_["Value"] > 0]`). -/
def posRows (rows : List LongRow) : List LongRow :=
  rows.filter (fun r => decide ((0 : Rat) < r.value))

/-- The population `top_services_usage` aggregates over: the rows with
positive Value, or all rows when there are none (`if tmp.empty`). -/
def svcSource (rows : List LongRow) : List LongRow :=
  if posRows rows = [] then rows else posRows rows

/-- The distinct non-null Job descriptions, ascending (pandas `groupby`
sorts its keys and drops NaN keys). -/
def svcKeys (src : List LongRow) : List String :=
  sortStrings ((src.filterMap (fun r => r.jobDescription)).dedup)

/-- The rows of the group of one Job description. -/
def svcGroup (src : List LongRow) (k : String) : List LongRow :=
  src.filter (fun r => decide (r.jobDescription = some k))

/-- Usage of a group: `("Job", "nunique")`, the number of distinct
non-null Job values. -/
def svcUsage (g : List LongRow) : Nat :=
  ((g.filterMap (fun r => r.job)).dedup).length

/-- The per-service aggregation
(`groupby("Job description").agg(Usage=..., Revenue=...)`):
one `(key, Usage, Revenue)` entry per distinct non-null Job
description. -/
def svcAgg (src : List LongRow) : List (String × Nat × Rat) :=
  (svcKeys src).map
    (fun k => (k, svcUsage (svcGroup src k), sumVals (svcGroup src k)))

/-- The sort relation of `.sort_values(["Usage", "Revenue"], ascending=False)`:
descending by Usage, ties broken by descending Revenue. -/
def usageRevDescLe (a b : String × Nat × Rat) : Prop :=
  b.2.1 < a.2.1 ∨ (b.2.1 = a.2.1 ∧ b.2.2 ≤ a.2.2)

instance : DecidableRel usageRevDescLe := fun a b => by
  unfold usageRevDescLe
  exact inferInstance

instance : IsTotal (String × Nat × Rat) usageRevDescLe := by
  constructor
  intro a b
  unfold usageRevDescLe
  rcases Nat.lt_trichotomy b.2.1 a.2.1 with h | h | h
  · exact Or.inl (Or.inl h)
  · rcases le_total b.2.2 a.2.2 with h2 | h2
    · exact Or.inl (Or.inr ⟨h, h2⟩)
    · exact Or.inr (Or.inr ⟨h.symm, h2⟩)
  · exact Or.inr (Or.inl h)

instance : IsTrans (String × Nat × Rat) usageRevDescLe := by
  constructor
  intro a b c hab hbc
  unfold usageRevDescLe at *
  rcases hab with h1 | ⟨h1, h1'⟩
  · rcases hbc with h2 | ⟨h2, _⟩
    · exact Or.inl (lt_trans h2 h1)
    · exact Or.inl (h2 ▸ h1)
  · rcases hbc with h2 | ⟨h2, h2'⟩
    · exact Or.inl (h1 ▸ h2)
    · exact Or.inr ⟨h2.trans h1, le_trans h2' h1'⟩

/-- The "Top N services by usage" table (`top_services_usage` in the
source): aggregate per service over `svcSource`, sort descending by
(Usage, Revenue), take the first `n`. -/
def top_services_usage (rows : List LongRow) (n : Nat) :
    List (String × Nat × Rat) :=
  (List.insertionSort usageRevDescLe (svcAgg (svcSource rows))).take n

/-- Rendering of an optional identifier field in the CSV export: NaN
becomes an empty field. -/
def csvField : Option String → String
  | some s => s
  | none => ""

/-- Rendering of a date in the CSV export. -/
def dateStr (d : Date) : String :=
  toString d.year ++ "-" ++ toString d.month ++ "-" ++ toString d.day

/-- One CSV data line: the six fields of a long row, comma-separated. -/
def csvLine (r : LongRow) : String :=
  String.intercalate ","
    [csvField r.client, csvField r.job, csvField r.jobDescription,
      csvField r.dataType, dateStr r.month, toString r.value]

/-- The CSV header line. -/
def csvHeader : String :=
  "Client,Job,Job description,Data type,Month,Value"

/-- The lines of the CSV export: the header line followed by one data
line per long row, in table order. -/
def csvLines (rows : List LongRow) : List String :=
  csvHeader :: rows.map csvLine

/-- The CSV export (`dff.to_csv(index=False).encode("utf-8-sig")`): a
byte-order mark, then every line newline-terminated. -/
def csv (rows : List LongRow) : String :=
  "\uFEFF" ++ String.join ((csvLines rows).map (fun l => l ++ "\n"))

/-- Modelled from the spec: the output order the spec asserts for the
reshape — row-major, i.e. all date columns of wide row 1, then all of
wide row 2, and so on. -/
def rowMajorOrder (t : WideTable) : List LongRow :=
  t.rows.flatMap (fun r => t.dateCols.enum.map (fun p => longOf r p.2 p.1))

/-- Column-major output order: for each date column in original header
order, all wide rows in wide-table order. -/
def columnMajorOrder (t : WideTable) : List LongRow :=
  t.dateCols.enum.flatMap (fun p => t.rows.map (fun r => longOf r p.2 p.1))

/-! ### Helper lemmas about the reshape -/

lemma sortDates_eq_nil {l : List Date} : sortDates l = [] ↔ l = [] := by
  unfold sortDates
  rw [← List.length_eq_zero, ← List.length_eq_zero (l := l),
    List.length_insertionSort]

lemma meltFrom_length (rows : List WideRow) (ds : List Date) (j : Nat) :
    (meltFrom rows ds j).length = ds.length * rows.length := by
  induction ds generalizing j with
  | nil => simp [meltFrom]
  | cons d ds ih =>
    simp [meltFrom, ih, Nat.succ_mul, Nat.add_comm]

lemma mem_meltFrom {rows : List WideRow} {ds : List Date} {j : Nat}
    {lr : LongRow} (h : lr ∈ meltFrom rows ds j) :
    ∃ r ∈ rows, ∃ i, ∃ hi : i < ds.length,
      lr = longOf r (ds.get ⟨i, hi⟩) (j + i) := by
  induction ds generalizing j with
  | nil => simp [meltFrom] at h
  | cons d ds ih =>
    rw [meltFrom, List.mem_append] at h
    rcases h with h | h
    · rcases List.mem_map.mp h with ⟨r, hr, hlr⟩
      exact ⟨r, hr, 0, Nat.succ_pos _, by simpa using hlr.symm⟩
    · rcases ih h with ⟨r, hr, i, hi, hlr⟩
      refine ⟨r, hr, i + 1, Nat.succ_lt_succ hi, ?_⟩
      simpa [Nat.add_assoc, Nat.add_comm 1 i] using hlr

lemma meltFrom_eq_enumFrom (rows : List WideRow) (ds : List Date) (j : Nat) :
    meltFrom rows ds j =
      (List.enumFrom j ds).flatMap
        (fun p => rows.map (fun r => longOf r p.2 p.1)) := by
  induction ds generalizing j with
  | nil => simp [meltFrom]
  | cons d ds ih => simp [meltFrom, List.enumFrom, ih]

lemma to_long_eq_ok (t : WideTable) (hm : missingCols t = [])
    (hd : t.dateCols ≠ []) :
    to_long t =
      Except.ok (melt t, sortDates ((melt t).map (fun r => r.month)).dedup) := by
  unfold to_long
  rw [if_neg (by simp [hm]), if_neg]
  unfold detect_month_cols
  rw [sortDates_eq_nil]
  exact hd

lemma to_long_ok_inv {t : WideTable} {long : List LongRow}
    {months : List Date} (h : to_long t = Except.ok (long, months)) :
    long = melt t ∧ missingCols t = [] ∧ t.dateCols ≠ [] := by
  by_cases hm : missingCols t = []
  · by_cases hd : t.dateCols = []
    · exfalso
      unfold to_long at h
      rw [if_neg (by simp [hm]), if_pos] at h
      · exact Except.noConfusion h
      · unfold detect_month_cols
        rw [sortDates_eq_nil]
        exact hd
    · rw [to_long_eq_ok t hm hd] at h
      have h2 := (Except.ok.injEq _ _).mp h.symm
      exact ⟨(Prod.mk.injEq _ _ _ _).mp h2 |>.1, hm, hd⟩
  · exfalso
    unfold to_long at h
    rw [if_pos hm] at h
    exact Except.noConfusion h

/-! ### Concrete example data used by witnesses and counterexamples -/

/-- A wide row for the worked examples. -/
def exRow1 : WideRow :=
  ⟨some "A", some "J1", some "S1", some "T1", [Cell.num 100, Cell.num 50]⟩

/-- A second wide row, with a blank cell and a negative value. -/
def exRow2 : WideRow :=
  ⟨some "B", some "J2", some "S2", some "T2", [Cell.blank, Cell.num (-3)]⟩

/-- A two-row, two-date-column wide table with all identifier columns. -/
def exTable : WideTable :=
  ⟨ID_COLS, [⟨2024, 1, 5⟩, ⟨2024, 2, 1⟩], [exRow1, exRow2]⟩

/-! ### Claims C1 to C4 -/

/-- C1: for every WideRow table with R rows and M distinct date-typed
columns on which the reshape succeeds, `to_long` produces a LongRow
table with exactly R×M rows, each row carrying the four identifier
fields of some wide row, the date of one of its columns truncated to
first-of-month as Month, and the coerced cell under that column as
Value. -/
theorem reshape_row_count (t : WideTable) (hm : missingCols t = [])
    (hd : t.dateCols ≠ []) (hnd : t.dateCols.Nodup) :
    ∃ months, to_long t = Except.ok (melt t, months) ∧
      (melt t).length = t.rows.length * t.dateCols.length ∧
      ∀ lr ∈ melt t, ∃ r ∈ t.rows, ∃ i, ∃ hi : i < t.dateCols.length,
        lr = longOf r (t.dateCols.get ⟨i, hi⟩) i := by
  refine ⟨_, to_long_eq_ok t hm hd, ?_, ?_⟩
  · rw [melt, meltFrom_length, Nat.mul_comm]
  · intro lr hlr
    rcases mem_meltFrom hlr with ⟨r, hr, i, hi, hlr⟩
    exact ⟨r, hr, i, hi, by simpa using hlr⟩

/-- Witness for C1 on a concrete two-row, two-column table. -/
theorem reshape_row_count_witness :
    ∃ months, to_long exTable = Except.ok (melt exTable, months) ∧
      (melt exTable).length = exTable.rows.length * exTable.dateCols.length :=
  (reshape_row_count exTable (by decide) (by decide) (by decide)).elim
    (fun months h => ⟨months, h.1, h.2.1⟩)

/-- C2: the reshape coerces a blank or non-numeric cell to Value = 0
and preserves every numeric cell (including negative values) exactly;
every Value of the long table arises as such a coercion (and so is a
total `Rat`, never null). -/
theorem value_coercion :
    coerceCell Cell.blank = 0 ∧
    (∀ s, coerceCell (Cell.nonNum s) = 0) ∧
    (∀ q, coerceCell (Cell.num q) = q) ∧
    ∀ t long months, to_long t = Except.ok (long, months) →
      ∀ lr ∈ long, ∃ r ∈ t.rows, ∃ j,
        lr.value = coerceCell (r.cells.getD j Cell.blank) := by
  refine ⟨rfl, fun s => rfl, fun q => rfl, ?_⟩
  intro t long months h lr hlr
  rw [(to_long_ok_inv h).1] at hlr
  rcases mem_meltFrom hlr with ⟨r, hr, i, hi, hlr⟩
  exact ⟨r, hr, 0 + i, by rw [hlr]; rfl⟩

/-- Witness for C2: a concrete melted row of the example table has its
Value given by coercing a wide cell. -/
theorem value_coercion_witness :
    ∃ r ∈ exTable.rows, ∃ j,
      (longOf exRow1 ⟨2024, 1, 5⟩ 0).value =
        coerceCell (r.cells.getD j Cell.blank) :=
  value_coercion.2.2.2 exTable (melt exTable)
    (sortDates ((melt exTable).map (fun r => r.month)).dedup)
    (to_long_eq_ok exTable (by decide) (by decide))
    (longOf exRow1 ⟨2024, 1, 5⟩ 0) (by decide)

/-- C3 counterexample: on the concrete example table the reshape
succeeds, but its output rows are not in the row-major order the claim
asserts (they are emitted column by column). -/
theorem reshape_order_counterexample :
    to_long exTable =
      Except.ok (melt exTable,
        sortDates ((melt exTable).map (fun r => r.month)).dedup) ∧
    melt exTable ≠ rowMajorOrder exTable := by
  exact ⟨to_long_eq_ok exTable (by decide) (by decide), by decide⟩

/-- C3 (amended): the reshape is deterministic (it is a pure function
of the wide table) and its output order is column-major: for each date
column in original header order, all wide rows in wide-table order. -/
theorem reshape_order_column_major (t : WideTable) (long : List LongRow)
    (months : List Date) (h : to_long t = Except.ok (long, months)) :
    to_long t = to_long t ∧ long = columnMajorOrder t := by
  refine ⟨rfl, ?_⟩
  rw [(to_long_ok_inv h).1, melt, meltFrom_eq_enumFrom, columnMajorOrder,
    List.enum]

/-- Witness for the amended C3 on the example table. -/
theorem reshape_order_column_major_witness :
    to_long exTable = to_long exTable ∧
      melt exTable = columnMajorOrder exTable :=
  reshape_order_column_major exTable (melt exTable)
    (sortDates ((melt exTable).map (fun r => r.month)).dedup)
    (to_long_eq_ok exTable (by decide) (by decide))

/-- C4: a table missing identifier columns makes `to_long` fail with an
error naming exactly the missing ones (and no long table is produced);
a table with all identifiers but no date-typed headers makes `to_long`
fail with the no-date-columns error. -/
theorem schema_errors (t : WideTable) :
    (missingCols t ≠ [] →
      to_long t = Except.error (ReshapeError.schemaMissing (missingCols t)) ∧
      ∀ c, c ∈ missingCols t ↔ c ∈ ID_COLS ∧ c ∉ t.strCols) ∧
    (missingCols t = [] → t.dateCols = [] →
      to_long t = Except.error ReshapeError.schemaNoDates) := by
  constructor
  · intro hm
    constructor
    · unfold to_long
      rw [if_pos hm]
    · intro c
      simp [missingCols, List.mem_filter]
  · intro hm hd
    unfold to_long
    rw [if_neg (by simp [hm]), if_pos]
    unfold detect_month_cols
    rw [sortDates_eq_nil]
    exact hd

/-- Witness for C4: a table lacking "Job description" (and the others
except Client) errors naming the missing columns, and a table with all
identifiers but no date columns errors with the no-date error. -/
theorem schema_errors_witness :
    to_long ⟨["Client"], [⟨2024, 1, 5⟩], [exRow1]⟩ =
      Except.error (ReshapeError.schemaMissing
        ["Job", "Job description", "Data type"]) ∧
    to_long ⟨ID_COLS, [], [exRow1]⟩ =
      Except.error ReshapeError.schemaNoDates := by
  constructor
  · exact ((schema_errors ⟨["Client"], [⟨2024, 1, 5⟩], [exRow1]⟩).1
      (by decide)).1
  · exact (schema_errors ⟨ID_COLS, [], [exRow1]⟩).2 (by decide) rfl

/-! ### Helper lemmas about sums over groups -/

lemma sumVals_cons (r : LongRow) (l : List LongRow) :
    sumVals (r :: l) = r.value + sumVals l := by
  simp [sumVals]

lemma sumVals_filter_add (p : LongRow → Bool) (rows : List LongRow) :
    sumVals (rows.filter p) + sumVals (rows.filter (fun r => !p r)) =
      sumVals rows := by
  induction rows with
  | nil => simp [sumVals]
  | cons r l ih =>
    rw [List.filter_cons, List.filter_cons, sumVals_cons, ← ih]
    cases hp : p r
    · simp only [hp, Bool.not_false, Bool.false_eq_true, if_false, if_true,
        sumVals_cons]
      ring
    · simp only [hp, Bool.not_true, Bool.false_eq_true, if_false, if_true,
        sumVals_cons]
      ring

lemma sum_group {κ : Type} [DecidableEq κ] (key : LongRow → κ)
    (keys : List κ) (rows : List LongRow) (hnd : keys.Nodup)
    (hcov : ∀ r ∈ rows, key r ∈ keys) :
    (keys.map
      (fun k => sumVals (rows.filter (fun r => decide (key r = k))))).sum =
      sumVals rows := by
  induction keys generalizing rows with
  | nil =>
    cases rows with
    | nil => simp [sumVals]
    | cons r l => exact absurd (hcov r (List.mem_cons_self _ _)) (by simp)
  | cons k ks ih =>
    rw [List.map_cons, List.sum_cons]
    have hk : k ∉ ks := (List.nodup_cons.mp hnd).1
    have hnd2 : ks.Nodup := (List.nodup_cons.mp hnd).2
    have hmap : ∀ m ∈ ks,
        sumVals (rows.filter (fun r => decide (key r = m))) =
          sumVals ((rows.filter (fun r => !decide (key r = k))).filter
            (fun r => decide (key r = m))) := by
      intro m hm
      rw [List.filter_filter]
      congr 1
      apply List.filter_congr
      intro r _
      by_cases h : key r = m
      · have hmk : ¬m = k := fun he => hk (he ▸ hm)
        simp [h, hmk]
      · simp [h]
    rw [List.map_congr_left hmap,
      ih ((rows.filter (fun r => !decide (key r = k)))) hnd2 ?_]
    · exact sumVals_filter_add (fun r => decide (key r = k)) rows
    · intro r hr
      rcases List.mem_filter.mp hr with ⟨hr1, hr2⟩
      have hne : key r ≠ k := by simpa using hr2
      rcases List.mem_cons.mp (hcov r hr1) with h | h
      · exact absurd h hne
      · exact h

lemma mem_sortDates {d : Date} {l : List Date} : d ∈ sortDates l ↔ d ∈ l :=
  List.mem_insertionSort Date.le

lemma mem_sortStrings {s : String} {l : List String} :
    s ∈ sortStrings l ↔ s ∈ l :=
  List.mem_insertionSort (fun a b : String => a ≤ b)

lemma monthKeys_nodup (rows : List LongRow) : (monthKeys rows).Nodup := by
  unfold monthKeys sortDates
  exact (List.perm_insertionSort Date.le _).nodup_iff.mpr (List.nodup_dedup _)

lemma mem_monthKeys {rows : List LongRow} {r : LongRow} (hr : r ∈ rows) :
    r.month ∈ monthKeys rows := by
  unfold monthKeys
  rw [mem_sortDates, List.mem_dedup]
  exact List.mem_map_of_mem (fun r => r.month) hr

/-! ### Claims C6 and C9 -/

/-- C6: for every LongRow table, the total revenue (sum of Value over
all rows) equals the sum of the per-month sums behind the monthly
revenue chart. -/
theorem revenue_conservation (rows : List LongRow) :
    revenue_total rows =
      ((line_revenue_by_month rows).map (fun p => p.2)).sum := by
  unfold revenue_total line_revenue_by_month
  rw [List.map_map]
  exact (sum_group (fun r => r.month) (monthKeys rows) rows
    (monthKeys_nodup rows) (fun r hr => mem_monthKeys hr)).symm

/-- C9: the CSV export of the filtered table is the header line
followed by exactly one comma-separated line per filtered LongRow, in
order, prefixed by the UTF-8 byte-order mark and with every line
newline-terminated; the filtered table is exactly the mask filter of
the long table. -/
theorem csv_export (rows : List LongRow) (startM endM : Date)
    (selTypes selClients selServices : List String) :
    csvLines (dff rows startM endM selTypes selClients selServices) =
      csvHeader ::
        (dff rows startM endM selTypes selClients selServices).map csvLine ∧
    (csvLines (dff rows startM endM selTypes selClients selServices)).length =
      (dff rows startM endM selTypes selClients selServices).length + 1 ∧
    csv (dff rows startM endM selTypes selClients selServices) =
      "\uFEFF" ++ String.join
        ((csvLines (dff rows startM endM selTypes selClients selServices)).map
          (fun l => l ++ "\n")) ∧
    dff rows startM endM selTypes selClients selServices =
      rows.filter (mask startM endM selTypes selClients selServices) := by
  refine ⟨rfl, ?_, rfl, rfl⟩
  simp [csvLines]

/-! ### Helper lemmas about the filter pipeline -/

lemma mem_optionsOf {v : String} {vals : List (Option String)} :
    v ∈ optionsOf vals ↔ some v ∈ vals := by
  unfold optionsOf
  rw [mem_sortStrings, List.mem_dedup, List.mem_filterMap]
  constructor
  · rintro ⟨o, ho, rfl⟩
    exact ho
  · intro h
    exact ⟨some v, h, rfl⟩

lemma multiselect_all_nil (options : List String) :
    multiselect_all options [] = options :=
  rfl

lemma multiselect_all_self (options : List String) :
    multiselect_all options options = options := by
  unfold multiselect_all
  rw [ite_self]

lemma not_mem_multiselect_all {options sel : List String} {v : String}
    (hsub : sel ⊆ options) (hno : v ∉ options) :
    v ∉ multiselect_all options sel := by
  unfold multiselect_all
  split
  · exact hno
  · exact fun hv => hno (hsub hv)

lemma contains_eq_false_of_not_mem {l : List String} {v : String}
    (h : v ∉ l) : l.contains v = false := by
  simpa using h

lemma contains_eq_true_of_mem {l : List String} {v : String}
    (h : v ∈ l) : l.contains v = true := by
  simpa using h

/-! ### Concrete long rows used by filter counterexamples -/

/-- A long row whose Data type is missing (NaN). -/
def rNull : LongRow := ⟨some "A", some "J", some "S", none, ⟨2024, 1, 1⟩, 5⟩

/-- A long row whose Client is missing (NaN). -/
def rNaN : LongRow := ⟨none, some "J1", some "S", some "T", ⟨2024, 1, 1⟩, 1⟩

/-- A long row whose Client is the literal string "nan". -/
def rLit : LongRow := ⟨some "nan", some "J2", some "S", some "T", ⟨2024, 1, 1⟩, 2⟩

/-- A long row with Value 0 and a null Job description. -/
def rZero : LongRow := ⟨some "A", some "J", none, some "T", ⟨2024, 1, 1⟩, 0⟩

/-- A long row with Value 0 and a non-null Job description. -/
def rNull0 : LongRow :=
  ⟨some "A", some "J", some "S0", some "T", ⟨2024, 1, 1⟩, 0⟩

/-! ### Claims C5 and C10 -/

/-- C5 counterexample: with an empty DataTypes selection (and the other
two selections at their full domains), a row whose Data type is missing
is filtered out even though its month lies inside the range — so an
empty categorical set does not let all values pass. -/
theorem empty_set_counterexample :
    filtered_pipeline [rNull] ⟨2024, 1, 1⟩ ⟨2024, 1, 1⟩ []
        (clients [rNull]) (services [rNull]) = [] ∧
      ([rNull] : List LongRow) ≠ [] ∧
      Date.le ⟨2024, 1, 1⟩ rNull.month ∧ Date.le rNull.month ⟨2024, 1, 1⟩ := by
  refine ⟨by decide, by decide, by decide, by decide⟩

/-- C5 (amended): an empty categorical selection yields the same
filtered result as selecting the full domain of selectable (non-null)
values, and every row whose corresponding field is non-null passes
that categorical predicate. -/
theorem empty_set_means_full_domain (rows : List LongRow)
    (startM endM : Date) (selTypes selClients selServices : List String) :
    filtered_pipeline rows startM endM [] selClients selServices =
      filtered_pipeline rows startM endM (data_types rows) selClients
        selServices ∧
    filtered_pipeline rows startM endM selTypes [] selServices =
      filtered_pipeline rows startM endM selTypes (clients rows)
        selServices ∧
    filtered_pipeline rows startM endM selTypes selClients [] =
      filtered_pipeline rows startM endM selTypes selClients
        (services rows) ∧
    (∀ r ∈ rows, ∀ v, r.dataType = some v →
      (multiselect_all (data_types rows) []).contains (strOf r.dataType) =
        true) ∧
    (∀ r ∈ rows, ∀ v, r.client = some v →
      (multiselect_all (clients rows) []).contains (strOf r.client) =
        true) ∧
    (∀ r ∈ rows, ∀ v, r.jobDescription = some v →
      (multiselect_all (services rows) []).contains
        (strOf r.jobDescription) = true) := by
  refine ⟨?_, ?_, ?_, ?_, ?_, ?_⟩
  · unfold filtered_pipeline
    rw [multiselect_all_nil, multiselect_all_self]
  · unfold filtered_pipeline
    rw [multiselect_all_nil, multiselect_all_self]
  · unfold filtered_pipeline
    rw [multiselect_all_nil, multiselect_all_self]
  · intro r hr v hv
    rw [multiselect_all_nil, hv]
    exact contains_eq_true_of_mem (mem_optionsOf.mpr
      (hv ▸ List.mem_map_of_mem (fun r => r.dataType) hr))
  · intro r hr v hv
    rw [multiselect_all_nil, hv]
    exact contains_eq_true_of_mem (mem_optionsOf.mpr
      (hv ▸ List.mem_map_of_mem (fun r => r.client) hr))
  · intro r hr v hv
    rw [multiselect_all_nil, hv]
    exact contains_eq_true_of_mem (mem_optionsOf.mpr
      (hv ▸ List.mem_map_of_mem (fun r => r.jobDescription) hr))

/-- Witness for the amended C5 on a concrete table. -/
theorem empty_set_means_full_domain_witness :
    filtered_pipeline [rNull] ⟨2024, 1, 1⟩ ⟨2024, 1, 1⟩ []
        (clients [rNull]) (services [rNull]) =
      filtered_pipeline [rNull] ⟨2024, 1, 1⟩ ⟨2024, 1, 1⟩
        (data_types [rNull]) (clients [rNull]) (services [rNull]) ∧
    (multiselect_all (clients [rNull]) []).contains (strOf rNull.client) =
      true :=
  ⟨(empty_set_means_full_domain [rNull] ⟨2024, 1, 1⟩ ⟨2024, 1, 1⟩
      (data_types [rNull]) (clients [rNull]) (services [rNull])).1,
    (empty_set_means_full_domain [rNull] ⟨2024, 1, 1⟩ ⟨2024, 1, 1⟩
      (data_types [rNull]) (clients [rNull]) (services [rNull])).2.2.2.2.1
      rNull (by decide) "A" (by decide)⟩

/-- C10 counterexample: when some other row carries the literal string
"nan" in the same field, the stringified NaN of a null-field row
collides with it, and the null-field row passes the default select-all
filter instead of being excluded. -/
theorem null_field_rows_excluded_counterexample :
    rNaN.client = none ∧
    filtered_pipeline [rNaN, rLit] ⟨2024, 1, 1⟩ ⟨2024, 1, 1⟩
        (data_types [rNaN, rLit]) (clients [rNaN, rLit])
        (services [rNaN, rLit]) = [rNaN, rLit] := by
  refine ⟨rfl, by decide⟩

/-- C10 (amended): a LongRow with a missing Client, Data type, or Job
description is excluded from the filtered table under every selection
the interface can produce (any subset of the selectable options,
including the cleared selection and the default select-all), provided
no non-null value of that field equals the literal string "nan" (the
stringified NaN would collide with it). -/
theorem null_field_rows_excluded (rows : List LongRow) (startM endM : Date)
    (selTypes selClients selServices : List String) (r : LongRow) :
    ((∀ x ∈ rows, x.client ≠ some "nan") → selClients ⊆ clients rows →
      r.client = none →
      r ∉ filtered_pipeline rows startM endM selTypes selClients
        selServices) ∧
    ((∀ x ∈ rows, x.dataType ≠ some "nan") → selTypes ⊆ data_types rows →
      r.dataType = none →
      r ∉ filtered_pipeline rows startM endM selTypes selClients
        selServices) ∧
    ((∀ x ∈ rows, x.jobDescription ≠ some "nan") →
      selServices ⊆ services rows → r.jobDescription = none →
      r ∉ filtered_pipeline rows startM endM selTypes selClients
        selServices) := by
  have hmem : ∀ sel opts, sel ⊆ opts →
      ∀ v : String, v ∉ opts → (multiselect_all opts sel).contains v = false :=
    fun sel opts hsub v hno =>
      contains_eq_false_of_not_mem (not_mem_multiselect_all hsub hno)
  refine ⟨?_, ?_, ?_⟩
  · intro hno hsub hr hin
    unfold filtered_pipeline dff at hin
    rcases List.mem_filter.mp hin with ⟨hin1, hmask⟩
    unfold mask at hmask
    rcases Bool.and_eq_true_iff.mp hmask with ⟨hrest, _⟩
    rcases Bool.and_eq_true_iff.mp hrest with ⟨hrest2, hcl⟩
    have hnan : ("nan" : String) ∉ clients rows := fun hn =>
      match List.mem_map.mp (mem_optionsOf.mp hn) with
      | ⟨x, hx, hxe⟩ => hno x hx hxe
    have hs : strOf r.client = "nan" := by rw [hr] <;> rfl
    rw [hs, hmem selClients (clients rows) hsub "nan" hnan] at hcl
    exact Bool.noConfusion hcl
  · intro hno hsub hr hin
    unfold filtered_pipeline dff at hin
    rcases List.mem_filter.mp hin with ⟨hin1, hmask⟩
    unfold mask at hmask
    rcases Bool.and_eq_true_iff.mp hmask with ⟨hrest, _⟩
    rcases Bool.and_eq_true_iff.mp hrest with ⟨hrest2, _⟩
    rcases Bool.and_eq_true_iff.mp hrest2 with ⟨hrest3, hty⟩
    have hnan : ("nan" : String) ∉ data_types rows := fun hn =>
      match List.mem_map.mp (mem_optionsOf.mp hn) with
      | ⟨x, hx, hxe⟩ => hno x hx hxe
    have hs : strOf r.dataType = "nan" := by rw [hr] <;> rfl
    rw [hs, hmem selTypes (data_types rows) hsub "nan" hnan] at hty
    exact Bool.noConfusion hty
  · intro hno hsub hr hin
    unfold filtered_pipeline dff at hin
    rcases List.mem_filter.mp hin with ⟨hin1, hmask⟩
    unfold mask at hmask
    rcases Bool.and_eq_true_iff.mp hmask with ⟨_, hsv⟩
    have hnan : ("nan" : String) ∉ services rows := fun hn =>
      match List.mem_map.mp (mem_optionsOf.mp hn) with
      | ⟨x, hx, hxe⟩ => hno x hx hxe
    have hs : strOf r.jobDescription = "nan" := by rw [hr] <;> rfl
    rw [hs, hmem selServices (services rows) hsub "nan" hnan] at hsv
    exact Bool.noConfusion hsv

/-- Witness for the amended C10: on a one-row table whose Client is
null, the row is excluded under the default select-all selection. -/
theorem null_field_rows_excluded_witness :
    rNaN ∉ filtered_pipeline [rNaN] ⟨2024, 1, 1⟩ ⟨2024, 1, 1⟩
      (data_types [rNaN]) (clients [rNaN]) (services [rNaN]) :=
  (null_field_rows_excluded [rNaN] ⟨2024, 1, 1⟩ ⟨2024, 1, 1⟩
      (data_types [rNaN]) (clients [rNaN]) (services [rNaN]) rNaN).1
    (by decide) (fun _ h => h) rfl

/-! ### Helper lemmas about the service ranking -/

lemma mem_svcAgg {src : List LongRow} {p : String × Nat × Rat}
    (hp : p ∈ svcAgg src) :
    p.2.1 = svcUsage (svcGroup src p.1) ∧
      p.2.2 = sumVals (svcGroup src p.1) := by
  unfold svcAgg at hp
  rcases List.mem_map.mp hp with ⟨k, _, he⟩
  rw [← he]
  exact ⟨rfl, rfl⟩

/-! ### Claim C8 -/

/-- C8 counterexample: a non-empty table whose single row has Value = 0
and a null Job description triggers the fallback, yet
`top_services_usage` still returns the empty list (the null key is
dropped by the groupby), contradicting the claimed non-empty ranked
result on non-empty input. -/
theorem top_services_usage_counterexample :
    ([rZero] : List LongRow) ≠ [] ∧ posRows [rZero] = [] ∧
      top_services_usage [rZero] 5 = [] := by
  refine ⟨by decide, by decide, by decide⟩

/-- C8 (amended): `top_services_usage` restricts to rows with positive
Value and falls back to all rows exactly when that restriction is
empty; its output is the first n of the per-service aggregation sorted
descending by (Usage, Revenue); each returned entry carries the
distinct-Job count and summed Value of its group; and in the fallback
case the result is non-empty provided the input is non-empty with
n ≥ 1 and some row has a non-null Job description. -/
theorem top_services_usage_spec (rows : List LongRow) (n : Nat) :
    (posRows rows ≠ [] → top_services_usage rows n =
      (List.insertionSort usageRevDescLe (svcAgg (posRows rows))).take n) ∧
    (posRows rows = [] → top_services_usage rows n =
      (List.insertionSort usageRevDescLe (svcAgg rows)).take n) ∧
    List.Pairwise usageRevDescLe (top_services_usage rows n) ∧
    (∀ p ∈ top_services_usage rows n,
      p.2.1 = svcUsage (svcGroup (svcSource rows) p.1) ∧
        p.2.2 = sumVals (svcGroup (svcSource rows) p.1)) ∧
    (posRows rows = [] → 1 ≤ n →
      (∃ r ∈ rows, r.jobDescription ≠ none) →
      top_services_usage rows n ≠ []) := by
  refine ⟨?_, ?_, ?_, ?_, ?_⟩
  · intro h
    unfold top_services_usage svcSource
    rw [if_neg h]
  · intro h
    unfold top_services_usage svcSource
    rw [if_pos h]
  · exact List.Pairwise.sublist (List.take_sublist n _)
      (List.sorted_insertionSort usageRevDescLe (svcAgg (svcSource rows)))
  · intro p hp
    have h2 : p ∈ svcAgg (svcSource rows) :=
      (List.mem_insertionSort usageRevDescLe).mp
        (List.take_subset n _ hp)
    exact mem_svcAgg h2
  · rintro hpos hn ⟨r, hr, hne⟩
    cases hjd : r.jobDescription with
    | none => exact absurd hjd hne
    | some k =>
      have hk : k ∈ svcKeys rows := by
        unfold svcKeys
        rw [mem_sortStrings, List.mem_dedup, List.mem_filterMap]
        exact ⟨r, hr, hjd⟩
      have hagg : svcAgg rows ≠ [] := by
        unfold svcAgg
        rw [Ne, List.map_eq_nil]
        exact List.ne_nil_of_mem hk
      unfold top_services_usage svcSource
      rw [if_pos hpos]
      apply List.ne_nil_of_length_pos
      rw [List.length_take, List.length_insertionSort]
      have hlen : 0 < (svcAgg rows).length := List.length_pos.mpr hagg
      omega

/-- Witness for the amended C8: the positive-restriction branch on a
table with a positive row, the fallback branch with a non-empty result
on an all-zero table, and the per-entry aggregation values. -/
theorem top_services_usage_spec_witness :
    top_services_usage [rNaN, rLit] 5 =
      (List.insertionSort usageRevDescLe
        (svcAgg (posRows [rNaN, rLit]))).take 5 ∧
    top_services_usage [rNull0] 5 =
      (List.insertionSort usageRevDescLe (svcAgg [rNull0])).take 5 ∧
    top_services_usage [rNull0] 5 ≠ [] ∧
    (("S" : String), svcUsage (svcGroup (svcSource [rNaN, rLit]) "S"),
        sumVals (svcGroup (svcSource [rNaN, rLit]) "S")).2.1 =
      svcUsage (svcGroup (svcSource [rNaN, rLit]) "S") :=
  ⟨(top_services_usage_spec [rNaN, rLit] 5).1 (by decide),
    (top_services_usage_spec [rNull0] 5).2.1 (by decide),
    (top_services_usage_spec [rNull0] 5).2.2.2.2 (by decide) (by decide)
      ⟨rNull0, by decide, by decide⟩,
    ((top_services_usage_spec [rNaN, rLit] 5).2.2.2.1
      ("S", svcUsage (svcGroup (svcSource [rNaN, rLit]) "S"),
        sumVals (svcGroup (svcSource [rNaN, rLit]) "S"))
      (List.mem_singleton.mpr rfl)).1⟩

end App
